import Mathlib

/-!
Verification of the Coach.AI single-page component (`src/app/page.tsx`).

The component is embedded shallowly: the React state hooks become an explicit
`AppState` record, every event handler becomes a function from the state (plus
the handler's inputs and the backend's responses, passed as oracle parameters)
to the successor state together with the list of backend requests the handler
issues and the error toast it raises, if any.  JavaScript numbers are modelled
as exact integers: every number the component computes is either an integer in
a small range or a quotient `sum / count` with `|sum| ≤ 990` and
`1 ≤ count ≤ 10`, and for such quotients the IEEE-754 double rounds to the same
first decimal as the exact rational (the only exact ties `sum/count = odd/4`
are exactly representable), so `toFixed(1)` is modelled by exact rational
rounding, half away from zero as the ECMAScript algorithm prescribes.
-/

set_option autoImplicit false

namespace CoachAI

/-- A row of the `plays` table (`select("id,name,icon")`). -/
structure Play where
  id : String
  name : String
  icon : String
deriving Repr, DecidableEq

/-- A row of the `games` table (`select("id,opponent,game_date")`). -/
structure Game where
  id : String
  opponent : String
  game_date : String
deriving Repr, DecidableEq

/-- A row of `play_calls_view` (`select("id,created_at,yards,play_name,icon,game_id")`). -/
structure RecentCall where
  id : String
  created_at : String
  yards : Int
  play_name : String
  icon : String
  game_id : String
deriving Repr, DecidableEq

/-- The `yardageDialog` state hook: `{ open, play, yards }`. -/
structure DialogState where
  isOpen : Bool
  play : Option Play
  yards : String
deriving Repr, DecidableEq

/-- The component's local state: one field per `useState` hook that the
handlers read or write (the session itself is handled by the auth listener
and does not appear in the handler claims). -/
structure AppState where
  plays : List Play
  games : List Game
  activeGameId : Option String
  recentCalls : List RecentCall
  email : String
  password : String
  teamName : String
  newPlayName : String
  newPlayIcon : String
  newOpponent : String
  newDate : String
  yardageDialog : DialogState
deriving Repr, DecidableEq

/-- A request issued to the Supabase backend, one constructor per distinct
network call the component can make. -/
inductive Request where
  | getSession
  | authSignUp (email password : String)
  | authSignIn (email password : String)
  | authSignOut
  | upsertProfile (userId team_name : String)
  | selectPlays
  | selectGames
  | selectRecent (gameId : String)
  | insertPlay (name icon : String)
  | deletePlayRow (id : String)
  | insertGame (opponent game_date : String)
  | insertPlayCall (playId gameId : String) (yards : Int)
deriving Repr, DecidableEq

/-- Result of running one event handler: the successor state, the backend
requests issued (in order), and the `toast.error` message raised, if any. -/
structure StepResult where
  state : AppState
  requests : List Request
  toastError : Option String
deriving Repr, DecidableEq

/-- `refreshPlays`: select all plays ordered by name; on error toast, else
replace the `plays` list. -/
def refreshPlays (st : AppState) (resp : Except String (List Play)) : StepResult :=
  match resp with
  | .error e => ⟨st, [Request.selectPlays], some e⟩
  | .ok data => ⟨{ st with plays := data }, [Request.selectPlays], none⟩

/-- `refreshGames`: select all games ordered by date descending; on success
replace the `games` list, and if no game is active and the result is nonempty,
make the first (most recently dated) game active. -/
def refreshGames (st : AppState) (resp : Except String (List Game)) : StepResult :=
  match resp with
  | .error e => ⟨st, [Request.selectGames], some e⟩
  | .ok data =>
    let st1 := { st with games := data }
    match st.activeGameId, data with
    | none, g :: _ => ⟨{ st1 with activeGameId := some g.id }, [Request.selectGames], none⟩
    | _, _ => ⟨st1, [Request.selectGames], none⟩

/-- `refreshRecent`: if no game is active, return immediately; otherwise query
the last 10 calls of the active game and, unless the query errs, replace the
`recentCalls` list. -/
def refreshRecent (st : AppState) (resp : Except String (List RecentCall)) : StepResult :=
  match st.activeGameId with
  | none => ⟨st, [], none⟩
  | some gid =>
    match resp with
    | .error _ => ⟨st, [Request.selectRecent gid], none⟩
    | .ok data => ⟨{ st with recentCalls := data }, [Request.selectRecent gid], none⟩

/-- `signUp`: requires all three fields nonempty, then delegates to
`auth.signUp` with email and password only; only toasts afterwards.  The
response oracle is `.ok hasUser` (whether `data.user` is non-null) or the
auth error message. -/
def signUp (st : AppState) (resp : Except String Bool) : StepResult :=
  if st.email = "" ∨ st.password = "" ∨ st.teamName = "" then
    ⟨st, [], some "Email, password, and team name are required"⟩
  else
    match resp with
    | .error e => ⟨st, [Request.authSignUp st.email st.password], some e⟩
    | .ok _ => ⟨st, [Request.authSignUp st.email st.password], none⟩

/-- `signIn`: delegates to `auth.signInWithPassword`; on success with a user,
upserts the profile row `{ user_id, team_name }` with `teamName || "My Team"`
(a failed upsert only toasts), then refreshes plays and games.  `authResp` is
the auth outcome (`some uid` when `data.user` is present). -/
def signIn (st : AppState) (authResp : Except String (Option String))
    (upsertResp : Option String)
    (playsResp : Except String (List Play)) (gamesResp : Except String (List Game)) :
    StepResult :=
  match authResp with
  | .error e => ⟨st, [Request.authSignIn st.email st.password], some e⟩
  | .ok none => ⟨st, [Request.authSignIn st.email st.password], none⟩
  | .ok (some uid) =>
    let tn := if st.teamName = "" then "My Team" else st.teamName
    let r1 := refreshPlays st playsResp
    let r2 := refreshGames r1.state gamesResp
    ⟨r2.state,
      Request.authSignIn st.email st.password :: Request.upsertProfile uid tn ::
        (r1.requests ++ r2.requests),
      upsertResp⟩

/-- `signOut`: calls `auth.signOut()`, then unconditionally clears plays,
games, the active game and the recent calls. -/
def signOut (st : AppState) : StepResult :=
  ⟨{ st with plays := [], games := [], activeGameId := none, recentCalls := [] },
    [Request.authSignOut], none⟩

/-- JavaScript `String.prototype.trim`: drop whitespace from both ends of the
string (written structurally so that it evaluates inside proofs). -/
def trimStr (s : String) : String :=
  ⟨((s.data.dropWhile Char.isWhitespace).reverse.dropWhile Char.isWhitespace).reverse⟩

/-- `addPlay`: rejects when the trimmed name is empty; otherwise inserts the
trimmed name with the selected icon, and on insert success clears the name
field and refreshes the plays. -/
def addPlay (st : AppState) (insertResp : Option String)
    (playsResp : Except String (List Play)) : StepResult :=
  if trimStr st.newPlayName = "" then ⟨st, [], some "Play name required"⟩
  else
    let req := Request.insertPlay (trimStr st.newPlayName) st.newPlayIcon
    match insertResp with
    | some e => ⟨st, [req], some e⟩
    | none =>
      let r := refreshPlays { st with newPlayName := "" } playsResp
      ⟨r.state, req :: r.requests, r.toastError⟩

/-- `deletePlay`: returns at once when the `confirm` dialog is declined;
otherwise deletes the row and, on success, refreshes plays and recent calls. -/
def deletePlay (st : AppState) (confirmed : Bool) (id : String)
    (deleteResp : Option String)
    (playsResp : Except String (List Play))
    (recentResp : Except String (List RecentCall)) : StepResult :=
  if ¬ confirmed then ⟨st, [], none⟩
  else
    let req := Request.deletePlayRow id
    match deleteResp with
    | some e => ⟨st, [req], some e⟩
    | none =>
      let r1 := refreshPlays st playsResp
      let r2 := refreshRecent r1.state recentResp
      ⟨r2.state, req :: (r1.requests ++ r2.requests), none⟩

/-- `addGame`: rejects an empty trimmed opponent; otherwise inserts
`{ opponent, game_date }` returning the new id, clears the opponent field,
refreshes the games, and finally makes the new id active (the id coming back
from `.select("id").single()` is truthy for any real row). -/
def addGame (st : AppState) (insertResp : Except String String)
    (gamesResp : Except String (List Game)) : StepResult :=
  if trimStr st.newOpponent = "" then ⟨st, [], some "Opponent required"⟩
  else
    let req := Request.insertGame (trimStr st.newOpponent) st.newDate
    match insertResp with
    | .error e => ⟨st, [req], some e⟩
    | .ok newId =>
      let r := refreshGames { st with newOpponent := "" } gamesResp
      let st2 := if newId = "" then r.state else { r.state with activeGameId := some newId }
      ⟨st2, req :: r.requests, r.toastError⟩

/-- The test `/^-?\d+$/.test(raw)`: an optional leading minus sign followed by
one or more decimal digits, anchored at both ends. -/
def matchesIntPattern (s : String) : Bool :=
  let cs := match s.data with
    | '-' :: rest => rest
    | cs => cs
  ¬ cs.isEmpty && cs.all Char.isDigit

/-- Value of a digit string, most significant digit first. -/
def digitsVal (cs : List Char) : Nat :=
  cs.foldl (fun a c => a * 10 + (c.toNat - '0'.toNat)) 0

/-- `Number(raw)` on a string matching `/^-?\d+$/`: the signed integer value
(exact; within the range the component accepts the double is exact, and any
string whose double exceeds the range also exceeds it exactly). -/
def parseIntStr (s : String) : Int :=
  match s.data with
  | '-' :: rest => -(digitsVal rest : Int)
  | cs => (digitsVal cs : Int)

/-- `recordPlayCall`: validates the selected play, the active game and the
yardage string, then inserts the call row and on success resets the dialog
and refreshes the recent calls. -/
def recordPlayCall (st : AppState) (insertResp : Option String)
    (recentResp : Except String (List RecentCall)) : StepResult :=
  match st.yardageDialog.play with
  | none => ⟨st, [], some "No play selected."⟩
  | some pl =>
    match st.activeGameId with
    | none => ⟨st, [], some "Pick or create a game first."⟩
    | some gid =>
      let raw := trimStr st.yardageDialog.yards
      if ¬ matchesIntPattern raw then
        ⟨st, [], some "Enter a whole number (no decimals)."⟩
      else
        let yards := parseIntStr raw
        if yards < -99 ∨ yards > 99 then
          ⟨st, [], some "Yards must be between -99 and 99"⟩
        else
          let req := Request.insertPlayCall pl.id gid yards
          match insertResp with
          | some e => ⟨st, [req], some e⟩
          | none =>
            let r := refreshRecent
              { st with yardageDialog := ⟨false, none, "0"⟩ } recentResp
            ⟨r.state, req :: r.requests, none⟩

/-- One `{ name, count, avg }` row of the per-play statistics. -/
structure StatEntry where
  name : String
  count : Nat
  avg : String
deriving Repr, DecidableEq

/-- One step of filling the `Map`: `m.get(k).count += 1; .sum += y`, with a
fresh key appended at the end, as JavaScript `Map` iteration order is key
insertion order. -/
def bump : List (String × Nat × Int) → String → Int → List (String × Nat × Int)
  | [], k, y => [(k, 1, y)]
  | (k', c, s) :: rest, k, y =>
    if k' = k then (k', c + 1, s + y) :: rest
    else (k', c, s) :: bump rest k y

/-- The `for (const r of recentCalls)` loop of `perPlayStats`, producing the
map entries in insertion order. -/
def collectStats (calls : List RecentCall) : List (String × Nat × Int) :=
  calls.foldl (fun m r => bump m r.play_name r.yards) []

/-- `(sum / count).toFixed(1)`: round `10 * |sum/count|` to the nearest
integer, half away from zero (the ECMAScript algorithm negates first and
breaks ties upward), and print sign, integer part, dot, and one digit. -/
def toFixed1 (s : Int) (c : Nat) : String :=
  let tenths := (2 * (10 * s.natAbs) + c) / (2 * c)
  (if s < 0 then "-" else "") ++ toString (tenths / 10) ++ "." ++ toString (tenths % 10)

/-- `perPlayStats`: group the recent calls by play name and render count and
average yards per group. -/
def perPlayStats (calls : List RecentCall) : List StatEntry :=
  (collectStats calls).map (fun e => ⟨e.1, e.2.1, toFixed1 e.2.2 e.2.1⟩)

/-- Truthiness of an environment variable: `process.env` values are either
absent or strings, and the empty string is falsy. -/
def truthyEnv : Option String → Bool
  | none => false
  | some s => s ≠ ""

/-- What the component renders on mount. -/
inductive Render where
  | fallbackScreen
  | loadingScreen
deriving Repr, DecidableEq

/-- Mounting the component: when either environment variable is falsy no
Supabase client is created and the static fallback card is returned before
any hook runs; otherwise the component shows the loading screen and the
session query effect fires. -/
def coachAIMount (url key : Option String) : Render × List Request :=
  if truthyEnv url && truthyEnv key then (Render.loadingScreen, [Request.getSession])
  else (Render.fallbackScreen, [])

/-! ### Spec-side description of the statistics aggregation

These definitions follow the spec's words (group by play name, count, sum,
insertion order of first occurrence) and are compared with the code-side
`perPlayStats` above. -/

/-- The play names of the recent calls, in list order. -/
def callNames (calls : List RecentCall) : List String :=
  calls.map RecentCall.play_name

/-- The distinct elements of `ns` in order of first occurrence: the key
order of a JavaScript `Map` filled from `ns`. -/
def firstOccurrences (ns : List String) : List String :=
  ns.foldl (fun acc n => if n ∈ acc then acc else acc ++ [n]) []

/-- How many recent calls carry the play name `n`. -/
def countName (calls : List RecentCall) (n : String) : Nat :=
  (calls.filter (fun r => r.play_name = n)).length

/-- Total yards over the recent calls named `n`. -/
def sumYardsFor (calls : List RecentCall) (n : String) : Int :=
  ((calls.filter (fun r => r.play_name = n)).map RecentCall.yards).sum

/-! ### Lemmas about `bump`, `firstOccurrences` and `collectStats` -/

theorem bump_of_not_mem (m : List (String × Nat × Int)) (k : String) (y : Int)
    (h : k ∉ m.map Prod.fst) : bump m k y = m ++ [(k, 1, y)] := by
  induction m with
  | nil => rfl
  | cons e rest ih =>
    obtain ⟨k', c, s⟩ := e
    simp only [List.map_cons, List.mem_cons, not_or] at h
    simp [bump, Ne.symm h.1, ih h.2]

theorem bump_map_of_mem (g : String → Nat × Int) (l : List String) (k : String) (y : Int)
    (hnd : l.Nodup) (hk : k ∈ l) :
    bump (l.map (fun n => (n, g n))) k y =
      l.map (fun n => if n = k then (n, (g n).1 + 1, (g n).2 + y) else (n, g n)) := by
  induction l with
  | nil => cases hk
  | cons n0 rest ih =>
    rcases List.nodup_cons.mp hnd with ⟨h0nin, hndr⟩
    by_cases h0 : n0 = k
    · subst h0
      simp only [List.map_cons, bump, eq_self_iff_true, if_true]
      refine congrArg _ ?_
      refine (List.map_congr_left ?_).symm
      intro n hn
      rw [if_neg ?_]
      intro hnk
      exact h0nin (hnk ▸ hn)
    · rcases List.mem_cons.mp hk with hkk | hk'
      · exact absurd hkk.symm h0
      · simp only [List.map_cons, bump, if_neg h0, ih hndr hk']

theorem foldl_firstOcc_mem (ns : List String) (acc : List String) (x : String) :
    x ∈ ns.foldl (fun acc n => if n ∈ acc then acc else acc ++ [n]) acc ↔
      x ∈ acc ∨ x ∈ ns := by
  induction ns generalizing acc with
  | nil => simp
  | cons n rest ih =>
    rw [List.foldl_cons, ih]
    by_cases hn : n ∈ acc
    · rw [if_pos hn]
      constructor
      · rintro (h | h)
        · exact Or.inl h
        · exact Or.inr (List.mem_cons_of_mem _ h)
      · rintro (h | h)
        · exact Or.inl h
        · rcases List.mem_cons.mp h with rfl | h
          · exact Or.inl hn
          · exact Or.inr h
    · rw [if_neg hn]
      simp only [List.mem_append, List.mem_singleton, List.mem_cons]
      tauto

theorem mem_firstOccurrences (ns : List String) (x : String) :
    x ∈ firstOccurrences ns ↔ x ∈ ns := by
  rw [firstOccurrences, foldl_firstOcc_mem]
  simp

theorem foldl_firstOcc_nodup (ns : List String) (acc : List String) (h : acc.Nodup) :
    (ns.foldl (fun acc n => if n ∈ acc then acc else acc ++ [n]) acc).Nodup := by
  induction ns generalizing acc with
  | nil => simpa using h
  | cons n rest ih =>
    rw [List.foldl_cons]
    by_cases hn : n ∈ acc
    · rw [if_pos hn]
      exact ih _ h
    · rw [if_neg hn]
      refine ih _ ?_
      simp [List.nodup_append, h, hn]

theorem firstOccurrences_nodup (ns : List String) : (firstOccurrences ns).Nodup :=
  foldl_firstOcc_nodup ns [] (by simp)

theorem firstOccurrences_append_singleton (ns : List String) (k : String) :
    firstOccurrences (ns ++ [k]) =
      if k ∈ firstOccurrences ns then firstOccurrences ns
      else firstOccurrences ns ++ [k] := by
  simp only [firstOccurrences, List.foldl_append, List.foldl_cons, List.foldl_nil]

theorem collectStats_append_singleton (calls : List RecentCall) (r : RecentCall) :
    collectStats (calls ++ [r]) = bump (collectStats calls) r.play_name r.yards := by
  simp only [collectStats, List.foldl_append, List.foldl_cons, List.foldl_nil]

theorem callNames_append_singleton (calls : List RecentCall) (r : RecentCall) :
    callNames (calls ++ [r]) = callNames calls ++ [r.play_name] := by
  simp [callNames]

theorem countName_append_singleton (calls : List RecentCall) (r : RecentCall) (n : String) :
    countName (calls ++ [r]) n =
      countName calls n + if r.play_name = n then 1 else 0 := by
  by_cases h : r.play_name = n <;>
    simp [countName, List.filter_append, h]

theorem sumYardsFor_append_singleton (calls : List RecentCall) (r : RecentCall) (n : String) :
    sumYardsFor (calls ++ [r]) n =
      sumYardsFor calls n + if r.play_name = n then r.yards else 0 := by
  by_cases h : r.play_name = n <;>
    simp [sumYardsFor, List.filter_append, h]

theorem countName_eq_zero_of_not_mem (calls : List RecentCall) (n : String)
    (h : n ∉ callNames calls) : countName calls n = 0 := by
  have hnil : calls.filter (fun r => r.play_name = n) = [] := by
    rw [List.filter_eq_nil_iff]
    intro r hr
    simp only [decide_eq_true_eq]
    exact fun heq => h (List.mem_map.mpr ⟨r, hr, heq⟩)
  simp [countName, hnil]

theorem sumYardsFor_eq_zero_of_not_mem (calls : List RecentCall) (n : String)
    (h : n ∉ callNames calls) : sumYardsFor calls n = 0 := by
  have hnil : calls.filter (fun r => r.play_name = n) = [] := by
    rw [List.filter_eq_nil_iff]
    intro r hr
    simp only [decide_eq_true_eq]
    exact fun heq => h (List.mem_map.mpr ⟨r, hr, heq⟩)
  simp [sumYardsFor, hnil]

theorem one_le_countName (calls : List RecentCall) (n : String)
    (h : n ∈ callNames calls) : 1 ≤ countName calls n := by
  obtain ⟨r, hr, hrn⟩ := List.mem_map.mp h
  have hmem : r ∈ calls.filter (fun r => r.play_name = n) :=
    List.mem_filter.mpr ⟨hr, by simp [hrn]⟩
  have := List.length_pos.mpr (List.ne_nil_of_mem hmem)
  simpa [countName] using this

/-- The `Map` built by `perPlayStats` holds, in order of first occurrence of
each play name, exactly that name's call count and yardage sum. -/
theorem collectStats_eq (calls : List RecentCall) :
    collectStats calls =
      (firstOccurrences (callNames calls)).map
        (fun n => (n, countName calls n, sumYardsFor calls n)) := by
  induction calls using List.reverseRecOn with
  | nil => rfl
  | append_singleton calls r ih =>
    rw [collectStats_append_singleton, ih, callNames_append_singleton,
      firstOccurrences_append_singleton]
    by_cases hk : r.play_name ∈ firstOccurrences (callNames calls)
    · rw [if_pos hk,
        bump_map_of_mem (fun n => (countName calls n, sumYardsFor calls n)) _ _ _
          (firstOccurrences_nodup _) hk]
      refine List.map_congr_left ?_
      intro n hn
      by_cases hnk : n = r.play_name
      · subst hnk
        rw [if_pos rfl, countName_append_singleton, sumYardsFor_append_singleton]
        simp
      · rw [if_neg hnk, countName_append_singleton, sumYardsFor_append_singleton,
          if_neg (fun heq => hnk heq.symm), if_neg (fun heq => hnk heq.symm)]
        simp
    · rw [if_neg hk,
        bump_of_not_mem _ _ _ (by simpa [List.map_map, Function.comp] using hk),
        List.map_append]
      have hk' : r.play_name ∉ callNames calls :=
        fun hmem => hk ((mem_firstOccurrences _ _).mpr hmem)
      refine congrArg₂ _ ?_ ?_
      · refine List.map_congr_left ?_
        intro n hn
        have hn' : n ∈ callNames calls := (mem_firstOccurrences _ _).mp hn
        have hnk : r.play_name ≠ n := fun heq => hk' (heq ▸ hn')
        rw [countName_append_singleton, sumYardsFor_append_singleton,
          if_neg hnk, if_neg hnk]
        simp
      · rw [List.map_singleton, countName_append_singleton, sumYardsFor_append_singleton,
          countName_eq_zero_of_not_mem _ _ hk', sumYardsFor_eq_zero_of_not_mem _ _ hk']
        simp

/-- `perPlayStats` in the spec's terms: one entry per distinct name, in order
of first occurrence, holding count and the formatted average. -/
theorem perPlayStats_eq (calls : List RecentCall) :
    perPlayStats calls =
      (firstOccurrences (callNames calls)).map
        (fun n => ⟨n, countName calls n,
          toFixed1 (sumYardsFor calls n) (countName calls n)⟩) := by
  rw [perPlayStats, collectStats_eq, List.map_map]
  rfl

theorem bump_totalCount (m : List (String × Nat × Int)) (k : String) (y : Int) :
    ((bump m k y).map (fun e => e.2.1)).sum = (m.map (fun e => e.2.1)).sum + 1 := by
  induction m with
  | nil => simp [bump]
  | cons e rest ih =>
    obtain ⟨k', c, s⟩ := e
    by_cases h : k' = k <;> simp [bump, h, ih] <;> omega

theorem foldl_bump_totalCount (calls : List RecentCall) :
    ∀ m : List (String × Nat × Int),
      (((calls.foldl (fun m r => bump m r.play_name r.yards) m)).map
          (fun e => e.2.1)).sum =
        (m.map (fun e => e.2.1)).sum + calls.length := by
  induction calls with
  | nil => simp
  | cons r rest ih =>
    intro m
    rw [List.foldl_cons, ih, bump_totalCount, List.length_cons]
    omega

/-! ### Concrete states used by the witnesses -/

/-- The recent-calls list of the spec's aggregation example. -/
def exCalls : List RecentCall :=
  [⟨"c1", "t1", 4, "Iso", "inside-run", "g1"⟩,
   ⟨"c2", "t2", 6, "Iso", "inside-run", "g1"⟩,
   ⟨"c3", "t3", -2, "Sweep", "outside-run", "g1"⟩]

/-- A blank state, as after the initial `useState` calls. -/
def st0 : AppState :=
  ⟨[], [], none, [], "", "", "", "", "inside-run", "", "", ⟨false, none, "0"⟩⟩

/-! ### Theorems -/

/-- C3: for every prior local state, `signOut` sets the plays list, the games
list, the active-game selection, and the recent-calls list to empty/none,
regardless of their previous contents. -/
theorem signOut_clears_collections (st : AppState) :
    (signOut st).state.plays = [] ∧ (signOut st).state.games = [] ∧
    (signOut st).state.activeGameId = none ∧ (signOut st).state.recentCalls = [] :=
  ⟨rfl, rfl, rfl, rfl⟩

/-- C5: when the confirmation dialog is declined, `deletePlay` issues no
backend request and leaves the whole local state (in particular the plays
list) unchanged, for every play id and backend oracle. -/
theorem deletePlay_unconfirmed_noop (st : AppState) (id : String)
    (deleteResp : Option String) (playsResp : Except String (List Play))
    (recentResp : Except String (List RecentCall)) :
    deletePlay st false id deleteResp playsResp recentResp = ⟨st, [], none⟩ :=
  rfl

/-- C10: when no active game is selected, `refreshRecent` issues no backend
query and leaves the state (in particular the recent-calls list) unchanged. -/
theorem refreshRecent_noop_without_active_game (st : AppState)
    (resp : Except String (List RecentCall)) (h : st.activeGameId = none) :
    refreshRecent st resp = ⟨st, [], none⟩ := by
  unfold refreshRecent
  rw [h]

/-- Witness for C10 at a concrete state with ten cached recent calls. -/
theorem refreshRecent_noop_witness :
    ({ st0 with recentCalls := List.replicate 10 ⟨"c", "t", 5, "Iso", "inside-run", "g"⟩
      } : AppState).activeGameId = none ∧
    refreshRecent { st0 with recentCalls := List.replicate 10 ⟨"c", "t", 5, "Iso", "inside-run", "g"⟩ }
        (.ok []) =
      ⟨{ st0 with recentCalls := List.replicate 10 ⟨"c", "t", 5, "Iso", "inside-run", "g"⟩ }, [], none⟩ :=
  ⟨rfl, refreshRecent_noop_without_active_game _ (.ok []) rfl⟩

/-- C6: if either connection parameter is absent at startup, the component
renders the static fallback screen and issues no backend request at all. -/
theorem missing_env_renders_fallback (url key : Option String)
    (h : url = none ∨ key = none) :
    coachAIMount url key = (Render.fallbackScreen, []) := by
  rcases h with h | h <;> subst h <;>
    simp [coachAIMount, truthyEnv]

/-- Witness for C6: the URL absent, the key present. -/
theorem missing_env_renders_fallback_witness :
    ((none : Option String) = none ∨ (some "anon-key" : Option String) = none) ∧
    coachAIMount none (some "anon-key") = (Render.fallbackScreen, []) :=
  ⟨Or.inl rfl, missing_env_renders_fallback none (some "anon-key") (Or.inl rfl)⟩

/-- State for the C7 witness: a padded play name and the `screen` icon. -/
def stTrips : AppState :=
  ⟨[], [], none, [], "", "", "", " Trips Right ", "screen", "", "", ⟨false, none, "0"⟩⟩

/-- State for the C4 witness: game `"g0"` active, a padded opponent typed in. -/
def stGameW : AppState :=
  ⟨[], [], some "g0", [], "", "", "", "", "inside-run", " Eagles ", "2026-10-11", ⟨false, none, "0"⟩⟩

/-- State for the C9 witness: credentials and a nonempty team name typed in. -/
def stAuthW : AppState :=
  ⟨[], [], none, [], "coach@team.com", "pw", "Ann Arbor Eagles", "", "inside-run", "", "",
    ⟨false, none, "0"⟩⟩

/-- State for the C1 witness: play `"Iso"` in the dialog with yardage `" 50 "`,
game `"g1"` active. -/
def stRecW : AppState :=
  ⟨[], [], some "g1", [], "", "", "", "", "inside-run", "", "",
    ⟨true, some ⟨"p1", "Iso", "inside-run"⟩, " 50 "⟩⟩

/-- C7: `addPlay` rejects an empty-after-trimming name with a validation
toast and no request at all; otherwise it issues the insert carrying the
trimmed name and the selected icon, and when the insert succeeds it also
issues the plays re-fetch. -/
theorem addPlay_validates_and_inserts (st : AppState) (insertResp : Option String)
    (playsResp : Except String (List Play)) :
    (trimStr st.newPlayName = "" →
      addPlay st insertResp playsResp = ⟨st, [], some "Play name required"⟩) ∧
    (trimStr st.newPlayName ≠ "" →
      Request.insertPlay (trimStr st.newPlayName) st.newPlayIcon ∈
        (addPlay st insertResp playsResp).requests ∧
      (insertResp = none →
        Request.selectPlays ∈ (addPlay st insertResp playsResp).requests)) := by
  constructor
  · intro h
    simp [addPlay, h]
  · intro h
    cases insertResp with
    | some e => simp [addPlay, h]
    | none =>
      refine ⟨?_, fun _ => ?_⟩ <;>
        cases playsResp <;> simp [addPlay, h, refreshPlays]

/-- Witness for C7 at the name `" Trips Right "` with the `screen` icon. -/
theorem addPlay_witness :
    trimStr stTrips.newPlayName ≠ "" ∧
    Request.insertPlay (trimStr stTrips.newPlayName) stTrips.newPlayIcon ∈
      (addPlay stTrips none (.ok [])).requests ∧
    Request.selectPlays ∈ (addPlay stTrips none (.ok [])).requests := by
  have h := (addPlay_validates_and_inserts stTrips none (.ok [])).2 (by decide)
  exact ⟨by decide, h.1, h.2 rfl⟩

/-- C4: whenever `addGame` succeeds (nonempty trimmed opponent, successful
insert returning a truthy id), the newly created game is the active game in
the resulting state, whatever game was active before and whatever the games
re-fetch returns. -/
theorem addGame_activates_new_game (st : AppState) (newId : String)
    (gamesResp : Except String (List Game))
    (hop : trimStr st.newOpponent ≠ "") (hid : newId ≠ "") :
    (addGame st (.ok newId) gamesResp).state.activeGameId = some newId := by
  simp only [addGame, if_neg hop, if_neg hid]

/-- Witness for C4: game `"g0"` is active, the refresh response puts the most
recently dated game `"g9"` first, and yet the new game `"g1"` ends up
active. -/
theorem addGame_witness :
    trimStr stGameW.newOpponent ≠ "" ∧ ("g1" : String) ≠ "" ∧
    (addGame stGameW (.ok "g1")
        (.ok [⟨"g9", "Hawks", "2026-12-01"⟩, ⟨"g1", "Eagles", "2026-10-11"⟩])).state.activeGameId =
      some "g1" :=
  ⟨by decide, by decide, addGame_activates_new_game stGameW "g1" _ (by decide) (by decide)⟩

/-- C9: `signUp` leaves the state untouched and issues at most the
auth-service sign-up call (never a profile upsert), while a `signIn` whose
auth succeeds is what upserts the profile with the entered team name,
defaulting to `"My Team"` when it is blank. -/
theorem signUp_defers_team_name (st : AppState) (resp : Except String Bool)
    (uid : String) (upsertResp : Option String)
    (playsResp : Except String (List Play)) (gamesResp : Except String (List Game)) :
    ((signUp st resp).state = st ∧
      (∀ q ∈ (signUp st resp).requests, q = Request.authSignUp st.email st.password)) ∧
    Request.upsertProfile uid (if st.teamName = "" then "My Team" else st.teamName) ∈
      (signIn st (.ok (some uid)) upsertResp playsResp gamesResp).requests := by
  refine ⟨?_, ?_⟩
  · unfold signUp
    split
    · exact ⟨rfl, by simp⟩
    · cases resp <;> exact ⟨rfl, by simp⟩
  · simp [signIn]

/-- Witness for C9 at a concrete sign-up/sign-in state with a nonempty team
name. -/
theorem signUp_defers_team_name_witness :
    (signUp stAuthW (.ok true)).state = stAuthW ∧
    Request.upsertProfile "u1" (if stAuthW.teamName = "" then "My Team" else stAuthW.teamName) ∈
      (signIn stAuthW (.ok (some "u1")) none (.ok []) (.ok [])).requests :=
  ⟨(signUp_defers_team_name stAuthW (.ok true) "u1" none (.ok []) (.ok [])).1.1,
    (signUp_defers_team_name stAuthW (.ok true) "u1" none (.ok []) (.ok [])).2⟩

/-- C1: with a play selected and a game active, `recordPlayCall` issues the
call-row insert exactly when the trimmed yardage string matches `-?\d+` and
parses to an integer in `[-99, 99]`; otherwise it raises the matching
validation toast, issues no request, and leaves the state unchanged. -/
theorem recordPlayCall_yardage_validation (st : AppState) (pl : Play) (gid : String)
    (insertResp : Option String) (recentResp : Except String (List RecentCall))
    (hpl : st.yardageDialog.play = some pl) (hg : st.activeGameId = some gid) :
    ((matchesIntPattern (trimStr st.yardageDialog.yards) = true ∧
        -99 ≤ parseIntStr (trimStr st.yardageDialog.yards) ∧
        parseIntStr (trimStr st.yardageDialog.yards) ≤ 99) ↔
      Request.insertPlayCall pl.id gid (parseIntStr (trimStr st.yardageDialog.yards)) ∈
        (recordPlayCall st insertResp recentResp).requests) ∧
    (¬ (matchesIntPattern (trimStr st.yardageDialog.yards) = true ∧
        -99 ≤ parseIntStr (trimStr st.yardageDialog.yards) ∧
        parseIntStr (trimStr st.yardageDialog.yards) ≤ 99) →
      (recordPlayCall st insertResp recentResp).state = st ∧
      (recordPlayCall st insertResp recentResp).requests = [] ∧
      (recordPlayCall st insertResp recentResp).toastError =
        some (if matchesIntPattern (trimStr st.yardageDialog.yards)
          then "Yards must be between -99 and 99"
          else "Enter a whole number (no decimals).")) := by
  unfold recordPlayCall
  rw [hpl, hg]
  dsimp only
  cases hmb : matchesIntPattern (trimStr st.yardageDialog.yards) with
  | false =>
    simp [hmb]
  | true =>
    by_cases hr : parseIntStr (trimStr st.yardageDialog.yards) < -99 ∨
        parseIntStr (trimStr st.yardageDialog.yards) > 99
    · rw [if_neg (not_not_intro rfl), if_pos hr]
      refine ⟨⟨fun hc => absurd hr (by omega), fun hmem => absurd hmem (by simp)⟩,
        fun _ => ⟨rfl, rfl, by rw [if_pos rfl]⟩⟩
    · rw [if_neg (not_not_intro rfl), if_neg hr]
      refine ⟨⟨fun _ => ?_, fun _ => ⟨rfl, by omega, by omega⟩⟩,
        fun hn => absurd ⟨rfl, by omega, by omega⟩ hn⟩
      cases insertResp <;> simp

/-- Witness for C1: yardage `" 50 "` (trimming to `"50"`) with a play and a
game selected is accepted and the call-row insert is issued. -/
theorem recordPlayCall_witness :
    stRecW.yardageDialog.play = some ⟨"p1", "Iso", "inside-run"⟩ ∧
    stRecW.activeGameId = some "g1" ∧
    Request.insertPlayCall "p1" "g1" (parseIntStr (trimStr stRecW.yardageDialog.yards)) ∈
      (recordPlayCall stRecW none (.ok [])).requests := by
  have h := (recordPlayCall_yardage_validation stRecW ⟨"p1", "Iso", "inside-run"⟩ "g1"
    none (.ok []) rfl rfl).1.mp (by decide)
  exact ⟨rfl, rfl, h⟩

/-- C2: for every recent-calls list (at most 10 entries), the aggregation
returns exactly one entry per distinct play name, grouped by name in order of
first occurrence, with `count` the number of calls of that name and `avg` the
sum of their yards divided by the count, formatted to one decimal place with
standard rounding. -/
theorem perPlayStats_grouped (calls : List RecentCall) (_hlen : calls.length ≤ 10) :
    perPlayStats calls =
      (firstOccurrences (callNames calls)).map
        (fun n => ⟨n, countName calls n,
          toFixed1 (sumYardsFor calls n) (countName calls n)⟩) :=
  perPlayStats_eq calls

/-- Witness for C2 on the spec's example `[Iso:4, Iso:6, Sweep:-2]`, checking
the grouped form and the concrete rendered entries. -/
theorem perPlayStats_grouped_witness :
    exCalls.length ≤ 10 ∧
    perPlayStats exCalls =
      (firstOccurrences (callNames exCalls)).map
        (fun n => ⟨n, countName exCalls n,
          toFixed1 (sumYardsFor exCalls n) (countName exCalls n)⟩) ∧
    perPlayStats exCalls = [⟨"Iso", 2, "5.0"⟩, ⟨"Sweep", 1, "-2.0"⟩] :=
  ⟨by decide, perPlayStats_grouped exCalls (by decide), by decide⟩

/-- C8: every aggregation entry has `count ≥ 1`, the entry names are pairwise
distinct and are exactly the distinct play names of the list, and the counts
sum to the list's length. -/
theorem perPlayStats_invariants (calls : List RecentCall) :
    (∀ e ∈ perPlayStats calls, 1 ≤ e.count) ∧
    ((perPlayStats calls).map StatEntry.name).Nodup ∧
    (∀ n, n ∈ (perPlayStats calls).map StatEntry.name ↔ n ∈ callNames calls) ∧
    ((perPlayStats calls).map StatEntry.count).sum = calls.length := by
  have hnames : (perPlayStats calls).map StatEntry.name =
      firstOccurrences (callNames calls) := by
    rw [perPlayStats_eq, List.map_map]
    exact (List.map_congr_left fun n _ => rfl).trans (List.map_id _)
  refine ⟨?_, ?_, ?_, ?_⟩
  · intro e he
    rw [perPlayStats_eq] at he
    obtain ⟨n, hn, rfl⟩ := List.mem_map.mp he
    exact one_le_countName calls n ((mem_firstOccurrences _ _).mp hn)
  · rw [hnames]
    exact firstOccurrences_nodup _
  · intro n
    rw [hnames]
    exact mem_firstOccurrences _ n
  · have h := foldl_bump_totalCount calls []
    have hcalls : callNames calls = calls.map RecentCall.play_name := rfl
    calc ((perPlayStats calls).map StatEntry.count).sum
        = ((collectStats calls).map (fun e => e.2.1)).sum := by
          rw [perPlayStats, List.map_map]
          rfl
      _ = calls.length := by
          rw [collectStats]
          simpa using h

/-- Witness for C8 on the spec's example list. -/
theorem perPlayStats_invariants_witness :
    (∀ e ∈ perPlayStats exCalls, 1 ≤ e.count) ∧
    ((perPlayStats exCalls).map StatEntry.count).sum = exCalls.length :=
  ⟨(perPlayStats_invariants exCalls).1, (perPlayStats_invariants exCalls).2.2.2⟩

end CoachAI
